import Mathlib

/-!
Shallow embedding of the authentication subsystem of the
`fullstack-openapi-js-poc` repository.

The JSON-file database is modelled as an explicit `DB` record holding the four
top-level arrays (`users`, `refreshTokens`, `tokenBlacklist`,
`passwordResetTokens`).  Every repository operation is translated from the
source as a pure function from (and, for mutating operations, to) that state.
Wall-clock time (`Date.now()` in seconds) is passed explicitly as `now`.
Randomly generated token strings are passed explicitly as arguments.
`sha256` and `bcrypt` are pure black boxes of the runtime and enter as
function parameters (`hash`, `bhash`, `bcompare`).  Fallible database writes
and reads are modelled by explicit `writeOk` / `readOk` flags feeding the
`_safeWrite` / `_safeRead` error paths of the source.
-/

namespace PocAuth

/-- User record persisted in the `users` array (src/unnamed/part_013). -/
structure User where
  id : Nat
  name : String
  email : String
  passwordHash : String
  roles : List String
  deriving DecidableEq, Repr

/-- User as returned by the auth service: `_toAuthUser` strips `passwordHash`
(authService.js, `_toAuthUser`). -/
structure AuthUser where
  id : Nat
  name : String
  email : String
  roles : List String
  deriving DecidableEq, Repr

/-- authService.js `_toAuthUser`: drop the password hash. -/
def toAuthUser (u : User) : AuthUser :=
  ⟨u.id, u.name, u.email, u.roles⟩

/-- JWT claims built by `JWTUtils.generateTokens` (jwt.js lines 33-41). -/
structure JwtPayload where
  sub : String
  email : String
  roles : List String
  iat : Nat
  exp : Nat
  iss : String
  aud : String
  deriving DecidableEq, Repr

/-- Access-token strings.  A well-formed JWT is `signed payload secret`
(signature = knowing `secret`); anything else is `malformed`. -/
inductive Token where
  | signed (payload : JwtPayload) (secret : String)
  | malformed (raw : String)
  deriving DecidableEq, Repr

/-- The raw string serialization of a token, as handed to the blacklist
store (the store hashes the raw token string). -/
def Token.enc : Token → String
  | .signed p secret => "jwt." ++ secret ++ "." ++ p.sub ++ "." ++ p.email
  | .malformed raw => "raw." ++ raw

/-- Error value `{code, message, status}` as attached to thrown `Error`s. -/
structure AuthError where
  code : String
  message : String
  status : Nat
  deriving DecidableEq, Repr

def invalidCredentialsError : AuthError :=
  ⟨"INVALID_CREDENTIALS", "メールアドレスまたはパスワードが正しくありません", 401⟩

def invalidTokenError : AuthError :=
  ⟨"INVALID_TOKEN", "無効なトークンです", 401⟩

def emailAlreadyExistsError : AuthError :=
  ⟨"EMAIL_ALREADY_EXISTS", "このメールアドレスは既に使用されています", 409⟩

def invalidRefreshTokenError : AuthError :=
  ⟨"INVALID_REFRESH_TOKEN", "リフレッシュトークンが無効です", 401⟩

def invalidResetTokenError : AuthError :=
  ⟨"INVALID_RESET_TOKEN", "無効なリセットトークンです", 400⟩

def userNotFoundError : AuthError :=
  ⟨"USER_NOT_FOUND", "ユーザーが見つかりません", 404⟩

def tokenBlacklistedError : AuthError :=
  ⟨"TOKEN_BLACKLISTED", "このトークンは無効です", 401⟩

def tokenRequiredError : AuthError :=
  ⟨"INVALID_TOKEN", "Token is required", 400⟩

def databaseWriteError : AuthError :=
  ⟨"DATABASE_WRITE_ERROR", "Database write failed", 500⟩

def databaseReadError : AuthError :=
  ⟨"DATABASE_READ_ERROR", "Database read failed", 500⟩

def tokenBlacklistFailedError : AuthError :=
  ⟨"TOKEN_BLACKLIST_FAILED", "トークンブラックリスト追加に失敗しました", 500⟩

/-- Refresh-token record (refreshTokenRepository.js `create`). -/
structure RefreshTokenRec where
  id : Nat
  token : String
  userId : Nat
  deviceInfo : Option String
  createdAt : Nat
  expiresAt : Nat
  lastUsedAt : Nat
  deriving DecidableEq, Repr

/-- Blacklist entry (tokenBlacklistRepository `addToBlacklist`). -/
structure BlacklistEntry where
  id : Nat
  tokenHash : String
  reason : String
  createdAt : Nat
  expiresAt : Nat
  deriving DecidableEq, Repr

/-- Password-reset token record (passwordResetRepository.js `createResetToken`). -/
structure ResetTokenRec where
  id : Nat
  userId : Nat
  token : String
  expiresAt : Nat
  createdAt : Nat
  used : Bool
  deriving DecidableEq, Repr

/-- The shared JSON document: one file with the four top-level arrays
(spec section 6, "Persisted layout"). -/
structure DB where
  users : List User
  refreshTokens : List RefreshTokenRec
  tokenBlacklist : List BlacklistEntry
  passwordResetTokens : List ResetTokenRec
  deriving DecidableEq, Repr

/-- Models `String.prototype.toLowerCase()`: lowercase character by character
(spelled over the character list so that it evaluates by kernel
reduction). -/
def strToLower (s : String) : String := ⟨s.data.map Char.toLower⟩

deriving instance DecidableEq for Except

namespace UserRepository

/-- Models `findByEmail` (part_013 line 179): case-insensitive first match. -/
def findByEmail (email : String) (users : List User) : Option User :=
  users.find? (fun u => strToLower u.email == strToLower email)

/-- Models `findById` (part_013): `users.find(u => u.id === parseInt(id))` with a
numeric id. -/
def findById (id : Nat) (users : List User) : Option User :=
  users.find? (fun u => u.id == id)

/-- Models `parseInt` on a candidate decimal string (the JWT `sub` claim is
produced by `user.id.toString()`, so the faithful cases are an all-digit
string or a non-numeric one, which yields `NaN`). -/
def parseDecimal (s : String) : Option Nat :=
  if s.data ≠ [] ∧ s.data.all (·.isDigit) then
    some (s.data.foldl (fun n c => n * 10 + (c.toNat - 48)) 0)
  else none

/-- Models `findById` called with a string id (the JWT `sub` claim): `parseInt`
yields a number only for numeric strings, and `NaN` matches no record. -/
def findByIdStr (id : String) (users : List User) : Option User :=
  match parseDecimal id with
  | some n => findById n users
  | none => none

/-- Models `create` (part_013 lines 102-126): new id is max existing id + 1. -/
def create (name email passwordHash : String) (roles : List String)
    (users : List User) : User × List User :=
  let maxId := users.foldr (fun u acc => max u.id acc) 0
  let newUser : User := ⟨maxId + 1, name, email, passwordHash, roles⟩
  (newUser, users ++ [newUser])

/-- Models `updatePassword` (part_013 line 280): update the first record whose id
matches; `none` when `findIndex` returns -1. -/
def updatePasswordAux (id : Nat) (newHash : String) :
    List User → Option (List User)
  | [] => none
  | u :: rest =>
    if u.id == id then some ({ u with passwordHash := newHash } :: rest)
    else (updatePasswordAux id newHash rest).map (u :: ·)

def updatePassword (id : Nat) (newHash : String) (users : List User) :
    List User × Bool :=
  match updatePasswordAux id newHash users with
  | none => (users, false)
  | some l => (l, true)

end UserRepository

namespace RefreshTokenRepository

/-- Thirty days in seconds (`expiresAt.setDate(expiresAt.getDate() + 30)`). -/
def thirtyDays : Nat := 30 * 24 * 60 * 60

/-- Models `create` (refreshTokenRepository.js lines 92-127). -/
def create (userId : Nat) (tok : String) (deviceInfo : Option String)
    (now : Nat) (rts : List RefreshTokenRec) :
    RefreshTokenRec × List RefreshTokenRec :=
  let r : RefreshTokenRec :=
    ⟨now, tok, userId, deviceInfo, now, now + thirtyDays, now⟩
  (r, rts ++ [r])

/-- Models `deleteByToken` (lines 227-249): splice out the first matching record;
`none` when absent. -/
def deleteByTokenAux (t : String) :
    List RefreshTokenRec → Option (List RefreshTokenRec)
  | [] => none
  | r :: rest =>
    if r.token == t then some rest
    else (deleteByTokenAux t rest).map (r :: ·)

def deleteByToken (t : String) (rts : List RefreshTokenRec) :
    List RefreshTokenRec × Bool :=
  match deleteByTokenAux t rts with
  | none => (rts, false)
  | some l => (l, true)

/-- Models `findByToken` (lines 134-162): first match by token string; an expired
match is lazily deleted and reported absent. -/
def findByToken (t : String) (now : Nat) (rts : List RefreshTokenRec) :
    Option RefreshTokenRec × List RefreshTokenRec :=
  match rts.find? (fun r => r.token == t) with
  | none => (none, rts)
  | some r =>
    if r.expiresAt < now then (none, (deleteByToken t rts).1)
    else (some r, rts)

/-- Models `updateLastUsed` (lines 198-220): stamp the first matching record. -/
def updateLastUsedAux (t : String) (now : Nat) :
    List RefreshTokenRec → Option (List RefreshTokenRec)
  | [] => none
  | r :: rest =>
    if r.token == t then some ({ r with lastUsedAt := now } :: rest)
    else (updateLastUsedAux t now rest).map (r :: ·)

def updateLastUsed (t : String) (now : Nat) (rts : List RefreshTokenRec) :
    List RefreshTokenRec :=
  match updateLastUsedAux t now rts with
  | none => rts
  | some l => l

/-- Models `deleteByUserId` (lines 256-275): keep the other users' records, return
the number of removed ones. -/
def deleteByUserId (userId : Nat) (rts : List RefreshTokenRec) :
    Nat × List RefreshTokenRec :=
  ((rts.filter (fun r => r.userId == userId)).length,
    rts.filter (fun r => r.userId != userId))

end RefreshTokenRepository

namespace TokenBlacklistRepository

/-- Models `expiresAt || (Math.floor(Date.now() / 1000) + 24*60*60)`: a falsy
expiry (absent or 0) falls back to now + 24h (part_012 line 139). -/
def defaultExpiry (expiresAt : Option Nat) (now : Nat) : Nat :=
  match expiresAt with
  | some e => if e = 0 then now + 24 * 60 * 60 else e
  | none => now + 24 * 60 * 60

/-- The entry built by `addToBlacklist` (part_012 lines 141-147); the
source's simple id generation is `Date.now()`. -/
def newEntry (hash : String → String) (token reason : String)
    (expiresAt : Option Nat) (now : Nat) : BlacklistEntry :=
  ⟨now, hash token, reason, now, defaultExpiry expiresAt now⟩

/-- Models `addToBlacklist` (part_012 lines 120-161).  `hash` stands for
`generateTokenHash` = sha256; `writeOk` injects `_safeWrite` failure. -/
def addToBlacklist (hash : String → String) (writeOk : Bool)
    (token reason : String) (expiresAt : Option Nat) (now : Nat)
    (bl : List BlacklistEntry) :
    Except AuthError (BlacklistEntry × List BlacklistEntry) :=
  if token = "" then .error tokenRequiredError
  else
    match bl.find? (fun e => e.tokenHash == hash token) with
    | some existing => .ok (existing, bl)
    | none =>
      if writeOk then
        .ok (newEntry hash token reason expiresAt now,
          bl ++ [newEntry hash token reason expiresAt now])
      else .error databaseWriteError

/-- Models `isBlacklisted` (part_012 lines 168-192): empty token short-circuits to
false before any read; `readOk` injects `_safeRead` failure; otherwise true
iff some entry matches the hash and is unexpired. -/
def isBlacklisted (hash : String → String) (readOk : Bool) (token : String)
    (now : Nat) (bl : List BlacklistEntry) : Except AuthError Bool :=
  if token = "" then .ok false
  else if readOk then
    .ok ((bl.find? (fun e => e.tokenHash == hash token
      && decide (now < e.expiresAt))).isSome)
  else .error databaseReadError

end TokenBlacklistRepository

namespace PasswordResetRepository

/-- The per-record body of the `forEach` in `invalidateUserTokens`: mark a
record used when it belongs to the user and is still unused. -/
def invalidateMark (userId : Nat) (rt : ResetTokenRec) : ResetTokenRec :=
  if rt.userId == userId && !rt.used then { rt with used := true } else rt

/-- Models `invalidateUserTokens` (passwordResetRepository.js lines 159-175): mark
used every unused token of the user, count them. -/
def invalidateUserTokens (userId : Nat) (toks : List ResetTokenRec) :
    List ResetTokenRec × Nat :=
  (toks.map (invalidateMark userId),
    (toks.filter (fun rt => rt.userId == userId && !rt.used)).length)

/-- Models `createResetToken` (lines 73-101).  The source captures `data`
from a first `_safeRead()`, then calls `invalidateUserTokens`, whose own
`_safeRead()` makes lowdb v7's `read()` replace `db.data` with a fresh
parse of the file.  The later `push` of the new record therefore lands in
the detached first-read object, while the final `_safeWrite()` serializes
the replaced `db.data` — so the store persisted on disk is the invalidated
array WITHOUT the new record.  The function returns the new record (handed
to the caller and emailed) alongside that persisted store; the id is
computed from the first-read array before the push, hence
`toks.length + 1`. -/
def createResetToken (userId expiresIn : Nat) (newTok : String) (now : Nat)
    (toks : List ResetTokenRec) : ResetTokenRec × List ResetTokenRec :=
  let resetToken : ResetTokenRec :=
    ⟨toks.length + 1, userId, newTok, now + expiresIn, now, false⟩
  (resetToken, (invalidateUserTokens userId toks).1)

/-- Models `findByToken` (lines 108-118): first record matching the token string
that is unused and unexpired. -/
def findByToken (token : String) (now : Nat) (toks : List ResetTokenRec) :
    Option ResetTokenRec :=
  toks.find? (fun rt =>
    rt.token == token && !rt.used && decide (now < rt.expiresAt))

/-- Models `markTokenAsUsed` (lines 140-152): flip `used` on the first record with
that token string; `none` when absent. -/
def markTokenAsUsedAux (token : String) :
    List ResetTokenRec → Option (List ResetTokenRec)
  | [] => none
  | rt :: rest =>
    if rt.token == token then some ({ rt with used := true } :: rest)
    else (markTokenAsUsedAux token rest).map (rt :: ·)

def markTokenAsUsed (token : String) (toks : List ResetTokenRec) :
    List ResetTokenRec × Bool :=
  match markTokenAsUsedAux token toks with
  | none => (toks, false)
  | some l => (l, true)

/-- Number of valid (unused, unexpired) reset tokens held by a user; the
measure of the spec's one-valid-token-per-user invariant. -/
def countValid (userId now : Nat) (toks : List ResetTokenRec) : Nat :=
  (toks.filter (fun rt =>
    rt.userId == userId && !rt.used && decide (now < rt.expiresAt))).length

end PasswordResetRepository

namespace JWTUtils

/-- Fixed issuer/audience identifier (jwt.js lines 39-40, 89-90). -/
def serviceIss : String := "api.example.com"

/-- Access-token claims as built in `generateTokens` (jwt.js lines 33-41). -/
def generatePayload (user : AuthUser) (now expiresIn : Nat) : JwtPayload :=
  ⟨toString user.id, user.email, user.roles, now, now + expiresIn,
    serviceIss, serviceIss⟩

/-- Token envelope returned to the caller (jwt.js lines 52-56). -/
structure AuthTokens where
  access_token : Token
  token_type : String
  expires_in : Nat
  deriving DecidableEq, Repr

/-- Models `generateTokens` (jwt.js lines 27-68): sign the payload with the server
secret, wrapped as a Bearer envelope. -/
def generateTokens (secret : String) (now expiresIn : Nat) (user : AuthUser) :
    AuthTokens :=
  ⟨Token.signed (generatePayload user now expiresIn) secret, "Bearer", expiresIn⟩

/-- Models `verifyToken` (jwt.js lines 75-127).  `jwt.verify` rejects malformed
input and signature mismatch, then an expired `exp`, then issuer/audience
mismatch.  In the source's catch, `TokenExpiredError` and `NotBeforeError`
are subclasses of `JsonWebTokenError`, so the `instanceof JsonWebTokenError`
branch fires for all of them: every verification failure surfaces as
INVALID_TOKEN 401. -/
def verifyToken (secret : String) (now : Nat) (tok : Token) :
    Except AuthError JwtPayload :=
  match tok with
  | .malformed _ => .error invalidTokenError
  | .signed p s =>
    if s ≠ secret then .error invalidTokenError
    else if p.exp ≤ now then .error invalidTokenError
    else if p.aud ≠ serviceIss then .error invalidTokenError
    else if p.iss ≠ serviceIss then .error invalidTokenError
    else .ok p

/-- The `exp` claim as `jwt.decode(token)?.exp || null` reads it in
`blacklistToken` (jwt.js lines 230-236): no signature check, and a zero
`exp` is falsy, hence dropped. -/
def decodeExp : Token → Option Nat
  | .signed p _ => if p.exp = 0 then none else some p.exp
  | .malformed _ => none

/-- Models `blacklistToken` (jwt.js lines 224-245): delegate to the blacklist
store keyed by the raw token string, with the decoded expiry. -/
def blacklistToken (hash : String → String) (writeOk : Bool) (tok : Token)
    (reason : String) (now : Nat) (bl : List BlacklistEntry) :
    Except AuthError (List BlacklistEntry) :=
  match TokenBlacklistRepository.addToBlacklist hash writeOk tok.enc reason
      (decodeExp tok) now bl with
  | .ok r => .ok r.2
  | .error _ => .error tokenBlacklistFailedError

/-- Models `isTokenBlacklisted` (jwt.js lines 252-261): any error from the store
is swallowed and reported as `true` (fail closed). -/
def isTokenBlacklisted (hash : String → String) (readOk : Bool) (tok : Token)
    (now : Nat) (bl : List BlacklistEntry) : Bool :=
  match TokenBlacklistRepository.isBlacklisted hash readOk tok.enc now bl with
  | .ok b => b
  | .error _ => true

end JWTUtils

namespace LocalAuthService

/-- Result of register/login: sanitized user plus token envelope plus the
opaque refresh token string attached as `tokens.refresh_token`. -/
structure AuthResult where
  user : AuthUser
  tokens : JWTUtils.AuthTokens
  refresh_token : String
  deriving DecidableEq, Repr

/-- Models `{success, message}` envelope returned by logout and resetPassword. -/
structure MessageResult where
  success : Bool
  message : String
  deriving DecidableEq, Repr

/-- Models `register` (authService.js lines 134-177).  `bhash` is `bcrypt.hash`
with the configured rounds; `rTok` the random refresh-token string. -/
def register (bhash : String → String) (secret : String) (now expiresIn : Nat)
    (rTok : String) (name email password : String) (db : DB) :
    Except AuthError (AuthResult × DB) :=
  match UserRepository.findByEmail email db.users with
  | some _ => .error emailAlreadyExistsError
  | none =>
    let passwordHash := bhash password
    let created := UserRepository.create name email passwordHash ["user"] db.users
    let authUser := toAuthUser created.1
    let tokens := JWTUtils.generateTokens secret now expiresIn authUser
    let refresh := RefreshTokenRepository.create authUser.id rTok none now
      db.refreshTokens
    .ok (⟨authUser, tokens, refresh.1.token⟩,
      { db with users := created.2, refreshTokens := refresh.2 })

/-- Models `login` (authService.js lines 182-218).  `bcompare` is
`bcrypt.compare`. -/
def login (bcompare : String → String → Bool) (secret : String)
    (now expiresIn : Nat) (rTok : String) (email password : String) (db : DB) :
    Except AuthError (AuthResult × DB) :=
  match UserRepository.findByEmail email db.users with
  | none => .error invalidCredentialsError
  | some user =>
    if bcompare password user.passwordHash then
      let authUser := toAuthUser user
      let tokens := JWTUtils.generateTokens secret now expiresIn authUser
      let refresh := RefreshTokenRepository.create user.id rTok none now
        db.refreshTokens
      .ok (⟨authUser, tokens, refresh.1.token⟩,
        { db with refreshTokens := refresh.2 })
    else .error invalidCredentialsError

/-- Models `getUserFromToken` (authService.js lines 246-261): verify the token and
look the subject up; the surrounding catch collapses every failure —
including USER_NOT_FOUND from `getUserById` — into INVALID_TOKEN 401. -/
def getUserFromToken (secret : String) (now : Nat) (tok : Token) (db : DB) :
    Except AuthError AuthUser :=
  match JWTUtils.verifyToken secret now tok with
  | .error _ => .error invalidTokenError
  | .ok payload =>
    match UserRepository.findByIdStr payload.sub db.users with
    | none => .error invalidTokenError
    | some user => .ok (toAuthUser user)

/-- Models `logout` (authService.js lines 267-277): blacklist the token; the catch
returns the same success envelope on any error. -/
def logout (hash : String → String) (writeOk : Bool) (tok : Token)
    (now : Nat) (db : DB) : MessageResult × DB :=
  match JWTUtils.blacklistToken hash writeOk tok "logout" now
      db.tokenBlacklist with
  | .ok bl => (⟨true, "ログアウトしました"⟩, { db with tokenBlacklist := bl })
  | .error _ => (⟨true, "ログアウトしました"⟩, db)

/-- Models `refreshAccessToken` (authService.js lines 284-305) together with
`verifyRefreshToken` (jwt.js lines 191-216): look up the stored record,
stamp `lastUsedAt`, fetch the owning user, issue fresh access tokens; the
catch turns every failure into INVALID_REFRESH_TOKEN 401. -/
def refreshAccessToken (secret : String) (now expiresIn : Nat)
    (refreshTok : String) (db : DB) :
    Except AuthError (AuthUser × JWTUtils.AuthTokens × DB) :=
  match RefreshTokenRepository.findByToken refreshTok now db.refreshTokens with
  | (none, _) => .error invalidRefreshTokenError
  | (some tokenData, rts) =>
    let rts2 := RefreshTokenRepository.updateLastUsed refreshTok now rts
    match UserRepository.findById tokenData.userId db.users with
    | none => .error invalidRefreshTokenError
    | some user =>
      .ok (toAuthUser user,
        JWTUtils.generateTokens secret now expiresIn (toAuthUser user),
        { db with refreshTokens := rts2 })

/-- Models `resetPassword` (authService.js lines 425-466): validate the reset
token, rehash and store the password, mark the token used, and delete all
the user's refresh tokens (`logoutAllDevices` → `deleteByUserId`). -/
def resetPassword (bhash : String → String) (token newPassword : String)
    (now : Nat) (db : DB) : Except AuthError (MessageResult × DB) :=
  match PasswordResetRepository.findByToken token now db.passwordResetTokens with
  | none => .error invalidResetTokenError
  | some resetToken =>
    match UserRepository.findById resetToken.userId db.users with
    | none => .error userNotFoundError
    | some user =>
      let newHash := bhash newPassword
      let users := (UserRepository.updatePassword user.id newHash db.users).1
      let resets :=
        (PasswordResetRepository.markTokenAsUsed token db.passwordResetTokens).1
      let rts := (RefreshTokenRepository.deleteByUserId user.id db.refreshTokens).2
      .ok (⟨true, "パスワードが正常にリセットされました"⟩,
        { db with
          users := users
          passwordResetTokens := resets
          refreshTokens := rts })

end LocalAuthService

/-- The `authenticate` middleware (middlewares/auth.js lines 8-61): reject
a blacklisted token with TOKEN_BLACKLISTED before `getUserFromToken` runs. -/
def authenticate (hash : String → String) (readOk : Bool) (secret : String)
    (now : Nat) (tok : Token) (db : DB) : Except AuthError AuthUser :=
  if JWTUtils.isTokenBlacklisted hash readOk tok now db.tokenBlacklist then
    .error tokenBlacklistedError
  else LocalAuthService.getUserFromToken secret now tok db

/-- Whole-document view of `RefreshTokenRepository.deleteByUserId`: the
repository's `Low` instance holds the full JSON document and reassigns only
its `refreshTokens` member before writing the document back. -/
def deleteByUserIdDB (userId : Nat) (db : DB) : Nat × DB :=
  let r := RefreshTokenRepository.deleteByUserId userId db.refreshTokens
  (r.1, { db with refreshTokens := r.2 })

/-- Whole-document view of `TokenBlacklistRepository.addToBlacklist`: only
the `tokenBlacklist` member of the document is reassigned; on error the
file is not written. -/
def addToBlacklistDB (hash : String → String) (writeOk : Bool)
    (token reason : String) (expiresAt : Option Nat) (now : Nat) (db : DB) :
    Except AuthError (BlacklistEntry × DB) :=
  match TokenBlacklistRepository.addToBlacklist hash writeOk token reason
      expiresAt now db.tokenBlacklist with
  | .ok r => .ok (r.1, { db with tokenBlacklist := r.2 })
  | .error e => .error e

/-- Whole-document view of `PasswordResetRepository.markTokenAsUsed`: only
the `passwordResetTokens` member of the document is reassigned. -/
def markTokenAsUsedDB (token : String) (db : DB) : DB × Bool :=
  let r := PasswordResetRepository.markTokenAsUsed token db.passwordResetTokens
  ({ db with passwordResetTokens := r.1 }, r.2)

/-- Number of blacklist entries stored under a given hash key. -/
def countHash (h : String) (bl : List BlacklistEntry) : Nat :=
  (bl.filter (fun e => e.tokenHash == h)).length

/-! ### Helper lemmas -/

/-- A list whose keys are pairwise distinct has at most one element per
key, duplicates included. -/
theorem pairwise_key_inj {α κ : Type} (key : α → κ) (l : List α)
    (h : l.Pairwise (fun a b => key a ≠ key b)) :
    ∀ a ∈ l, ∀ b ∈ l, key a = key b → a = b := by
  induction l with
  | nil => simp
  | cons x xs ih =>
    rw [List.pairwise_cons] at h
    intro a ha b hb hk
    rcases List.mem_cons.mp ha with rfl | ha₁ <;>
      rcases List.mem_cons.mp hb with rfl | hb₁
    · rfl
    · exact absurd hk (h.1 b hb₁)
    · exact absurd hk.symm (h.1 a ha₁)
    · exact ih h.2 a ha₁ b hb₁ hk

/-- The serialized form of a token is never the empty string, so the
blacklist store's `if (!token)` guard never fires on a real token. -/
theorem Token.enc_ne_empty (t : Token) : t.enc ≠ "" := by
  cases t with
  | signed p s =>
    intro h
    have hl := congrArg String.length h
    simp [Token.enc, String.length_append] at hl
    exact absurd hl.1.1.1.1.1 (by decide)
  | malformed r =>
    intro h
    have hl := congrArg String.length h
    simp [Token.enc, String.length_append] at hl
    exact absurd hl.1 (by decide)

/-! ### Witness fixtures -/

def sampleUser : User :=
  ⟨1, "alice", "alice@example.com", "hash1", ["user"]⟩

def sampleDB : DB := ⟨[sampleUser], [], [], []⟩

/-- A structurally valid, unexpired access token for `sampleUser`. -/
def samplePayload : JwtPayload :=
  ⟨"1", "alice@example.com", ["user"], 0, 100, "api.example.com",
    "api.example.com"⟩

def sampleToken : Token := .signed samplePayload "secret"

/-! ### Claim theorems -/

/-- C4: For every pair of login inputs, one with an email absent from the
store and one with a present email but mismatching password, login fails
in both runs with the identical error code, message and status
(INVALID_CREDENTIALS, 401), so the two failure causes are indistinguishable
to the caller. -/
theorem login_failures_indistinguishable
    (bcompare : String → String → Bool) (secret : String)
    (now expiresIn : Nat) (rTok1 rTok2 : String)
    (email1 password1 email2 password2 : String) (db : DB) (u : User)
    (habsent : UserRepository.findByEmail email1 db.users = none)
    (hfound : UserRepository.findByEmail email2 db.users = some u)
    (hmismatch : bcompare password2 u.passwordHash = false) :
    LocalAuthService.login bcompare secret now expiresIn rTok1 email1
        password1 db = .error invalidCredentialsError ∧
    LocalAuthService.login bcompare secret now expiresIn rTok2 email2
        password2 db = .error invalidCredentialsError ∧
    invalidCredentialsError.code = "INVALID_CREDENTIALS" ∧
    invalidCredentialsError.status = 401 := by
  refine ⟨?_, ?_, rfl, rfl⟩
  · simp [LocalAuthService.login, habsent]
  · simp [LocalAuthService.login, hfound, hmismatch]

theorem login_failures_indistinguishable_witness :
    LocalAuthService.login (fun _ _ => false) "secret" 0 3600 "r1" "bob@example.com"
        "pw" sampleDB = .error invalidCredentialsError ∧
    LocalAuthService.login (fun _ _ => false) "secret" 0 3600 "r2" "alice@example.com"
        "pw" sampleDB = .error invalidCredentialsError ∧
    invalidCredentialsError.code = "INVALID_CREDENTIALS" ∧
    invalidCredentialsError.status = 401 :=
  login_failures_indistinguishable (fun _ _ => false) "secret" 0 3600 "r1" "r2"
    "bob@example.com" "pw" "alice@example.com" "pw" sampleDB sampleUser
    (by decide) (by decide) rfl

/-- C8: For every token, logout returns the success envelope, both when the
blacklist insertion succeeds and when it raises any internal error; logout
never propagates a failure to the caller. -/
theorem logout_always_success (hash : String → String) (writeOk : Bool)
    (tok : Token) (now : Nat) (db : DB) :
    (LocalAuthService.logout hash writeOk tok now db).1 =
      ⟨true, "ログアウトしました"⟩ := by
  unfold LocalAuthService.logout
  cases JWTUtils.blacklistToken hash writeOk tok "logout" now
    db.tokenBlacklist <;> rfl

/-- C9: If the underlying blacklist lookup raises any internal error, the
blacklist check used on authenticated requests returns true (fail closed),
never false. -/
theorem isTokenBlacklisted_fail_closed (hash : String → String)
    (readOk : Bool) (tok : Token) (now : Nat) (bl : List BlacklistEntry)
    (e : AuthError)
    (herr : TokenBlacklistRepository.isBlacklisted hash readOk tok.enc now bl
      = .error e) :
    JWTUtils.isTokenBlacklisted hash readOk tok now bl = true := by
  unfold JWTUtils.isTokenBlacklisted
  rw [herr]

theorem isTokenBlacklisted_fail_closed_witness :
    JWTUtils.isTokenBlacklisted (fun s => s) false (Token.malformed "x") 0 []
      = true :=
  isTokenBlacklisted_fail_closed (fun s => s) false (Token.malformed "x") 0 []
    databaseReadError (by decide)

/-- C7: getUserFromToken raises the single error InvalidToken (401)
exactly when token verification fails for any underlying reason or when
verification succeeds but no user with the subject id exists; every error
it raises is that one error. -/
theorem getUserFromToken_single_error (secret : String) (now : Nat)
    (tok : Token) (db : DB) :
    (∀ e, LocalAuthService.getUserFromToken secret now tok db = .error e →
      e = invalidTokenError) ∧
    (LocalAuthService.getUserFromToken secret now tok db
        = .error invalidTokenError ↔
      (∃ e, JWTUtils.verifyToken secret now tok = .error e) ∨
      (∃ p, JWTUtils.verifyToken secret now tok = .ok p ∧
        UserRepository.findByIdStr p.sub db.users = none)) := by
  unfold LocalAuthService.getUserFromToken
  cases hv : JWTUtils.verifyToken secret now tok with
  | error e => simp
  | ok p =>
    cases hf : UserRepository.findByIdStr p.sub db.users with
    | none => simp [hf]
    | some u => simp [hf]

theorem getUserFromToken_single_error_witness :
    invalidTokenError = invalidTokenError :=
  (getUserFromToken_single_error "secret" 0 (Token.malformed "x") sampleDB).1
    invalidTokenError (by decide)

/-- C10: Each mutating store operation rewrites only its own top-level
array of the shared document: deleteByUserId touches only `refreshTokens`,
addToBlacklist only `tokenBlacklist`, markTokenAsUsed only
`passwordResetTokens`. -/
theorem repo_frame_preservation (userId : Nat) (hash : String → String)
    (writeOk : Bool) (tokS reason : String) (expiresAt : Option Nat)
    (now : Nat) (tokR : String) (db : DB) :
    ((deleteByUserIdDB userId db).2.users = db.users ∧
      (deleteByUserIdDB userId db).2.tokenBlacklist = db.tokenBlacklist ∧
      (deleteByUserIdDB userId db).2.passwordResetTokens
        = db.passwordResetTokens) ∧
    (∀ r db2,
      addToBlacklistDB hash writeOk tokS reason expiresAt now db
          = .ok (r, db2) →
      db2.users = db.users ∧ db2.refreshTokens = db.refreshTokens ∧
        db2.passwordResetTokens = db.passwordResetTokens) ∧
    ((markTokenAsUsedDB tokR db).1.users = db.users ∧
      (markTokenAsUsedDB tokR db).1.refreshTokens = db.refreshTokens ∧
      (markTokenAsUsedDB tokR db).1.tokenBlacklist = db.tokenBlacklist) := by
  refine ⟨⟨rfl, rfl, rfl⟩, ?_, rfl, rfl, rfl⟩
  intro r db2 h
  unfold addToBlacklistDB at h
  cases htb : TokenBlacklistRepository.addToBlacklist hash writeOk tokS reason
      expiresAt now db.tokenBlacklist with
  | error e => rw [htb] at h; exact absurd h (by simp)
  | ok pr =>
    rw [htb] at h
    rw [Except.ok.injEq, Prod.mk.injEq] at h
    rw [← h.2]
    exact ⟨rfl, rfl, rfl⟩

theorem repo_frame_preservation_witness :
    sampleDB.users = sampleDB.users ∧
    sampleDB.refreshTokens = sampleDB.refreshTokens ∧
    sampleDB.passwordResetTokens = sampleDB.passwordResetTokens :=
  (repo_frame_preservation 1 (fun s => s) true "tok" "logout" none 5 "rt"
      sampleDB).2.1
    ⟨5, "tok", "logout", 5, 5 + 24 * 60 * 60⟩
    { sampleDB with
      tokenBlacklist := [⟨5, "tok", "logout", 5, 5 + 24 * 60 * 60⟩] }
    (by decide)

/-- Verifying a freshly generated token with the same secret at issuance
time succeeds and returns the generated payload. -/
theorem verify_generateTokens (secret : String) (now expiresIn : Nat)
    (au : AuthUser) (h : 0 < expiresIn) :
    JWTUtils.verifyToken secret now
      (JWTUtils.generateTokens secret now expiresIn au).access_token
      = .ok (JWTUtils.generatePayload au now expiresIn) := by
  have hexp : ¬ (now + expiresIn ≤ now) := by omega
  simp [JWTUtils.generateTokens, JWTUtils.verifyToken,
    JWTUtils.generatePayload, hexp]

/-- C6: For every successful register, verifying the returned access token
yields claims whose subject id, email and roles equal the id, email and
roles of the user record created and returned by the registration. -/
theorem register_token_claims_match (bhash : String → String)
    (secret : String) (now expiresIn : Nat)
    (rTok name email password : String) (db : DB)
    (res : LocalAuthService.AuthResult) (db2 : DB)
    (hreg : LocalAuthService.register bhash secret now expiresIn rTok name
      email password db = .ok (res, db2))
    (httl : 0 < expiresIn) :
    ∃ p, JWTUtils.verifyToken secret now res.tokens.access_token = .ok p ∧
      p.sub = toString res.user.id ∧ p.email = res.user.email ∧
      p.roles = res.user.roles ∧
      ∃ u ∈ db2.users, u.id = res.user.id ∧ u.email = res.user.email ∧
        u.roles = res.user.roles := by
  unfold LocalAuthService.register at hreg
  cases hfe : UserRepository.findByEmail email db.users with
  | some u => rw [hfe] at hreg; exact absurd hreg (by simp)
  | none =>
    rw [hfe] at hreg
    simp only [UserRepository.create, Except.ok.injEq, Prod.mk.injEq] at hreg
    obtain ⟨hres, hdb⟩ := hreg
    subst hres
    subst hdb
    refine ⟨_, verify_generateTokens secret now expiresIn _ httl, rfl, rfl,
      rfl, ?_⟩
    refine ⟨_, List.mem_append_right _ (List.mem_singleton.mpr rfl),
      ?_, ?_, ?_⟩ <;> rfl

theorem register_token_claims_match_witness :
    ∃ p, JWTUtils.verifyToken "secret" 7
        ((⟨⟨2, "bob", "bob@example.com", ["user"]⟩,
          JWTUtils.generateTokens "secret" 7 3600
            ⟨2, "bob", "bob@example.com", ["user"]⟩,
          "rt1"⟩ : LocalAuthService.AuthResult).tokens.access_token)
        = .ok p ∧
      p.sub = "2" ∧ p.email = "bob@example.com" ∧ p.roles = ["user"] ∧
      ∃ u ∈ ({ sampleDB with
          users := sampleDB.users ++
            [⟨2, "bob", "bob@example.com", "H", ["user"]⟩]
          refreshTokens := [⟨7, "rt1", 2, none, 7, 7 +
            RefreshTokenRepository.thirtyDays, 7⟩] } : DB).users,
        u.id = 2 ∧ u.email = "bob@example.com" ∧ u.roles = ["user"] :=
  register_token_claims_match (fun _ => "H") "secret" 7 3600 "rt1" "bob"
    "bob@example.com" "pw" sampleDB
    ⟨⟨2, "bob", "bob@example.com", ["user"]⟩,
      JWTUtils.generateTokens "secret" 7 3600
        ⟨2, "bob", "bob@example.com", ["user"]⟩, "rt1"⟩
    { sampleDB with
      users := sampleDB.users ++ [⟨2, "bob", "bob@example.com", "H", ["user"]⟩]
      refreshTokens := [⟨7, "rt1", 2, none, 7, 7 +
        RefreshTokenRepository.thirtyDays, 7⟩] }
    (by decide) (by decide)

/-- C2 counterexample: with a structurally valid, unexpired token of an
existing user, `getUserFromToken` still succeeds after `logout` — it never
consults the blacklist — so it does not fail with InvalidToken as the
claim states. -/
theorem getUserFromToken_after_logout_ok :
    LocalAuthService.getUserFromToken "secret" 0 sampleToken
        (LocalAuthService.logout (fun s => s) true sampleToken 0 sampleDB).2
      = .ok (toAuthUser sampleUser) ∧
    ¬ (LocalAuthService.getUserFromToken "secret" 0 sampleToken
        (LocalAuthService.logout (fun s => s) true sampleToken 0 sampleDB).2
      = .error invalidTokenError) := by
  decide

/-- C2 amended: after logout(t), the blacklist check consulted by the
authenticate middleware flags t, so the middleware rejects the request
(TOKEN_BLACKLISTED, 401) before `getUserFromToken` runs; `getUserFromToken`
itself does not consult the blacklist and behaves exactly as before the
logout. -/
theorem addToBlacklist_ok_cases (hash : String → String)
    (token reason : String) (expOpt : Option Nat) (now : Nat)
    (bl : List BlacklistEntry) (hne : ¬ token = "") :
    ∃ r bl2, TokenBlacklistRepository.addToBlacklist hash true token reason
        expOpt now bl = .ok (r, bl2) ∧ r ∈ bl2 ∧
      r.tokenHash = hash token ∧
      (r ∈ bl ∨ r.expiresAt = TokenBlacklistRepository.defaultExpiry expOpt now) := by
  unfold TokenBlacklistRepository.addToBlacklist
  rw [if_neg hne]
  cases hfind : bl.find? (fun e => e.tokenHash == hash token) with
  | some ex =>
    have hb := List.find?_some hfind
    simp only [] at hb
    exact ⟨ex, bl, rfl, List.mem_of_find?_eq_some hfind, eq_of_beq hb,
      Or.inl (List.mem_of_find?_eq_some hfind)⟩
  | none =>
    exact ⟨_, _, rfl,
      List.mem_append_right _ (List.mem_singleton.mpr rfl), rfl, Or.inr rfl⟩

theorem logout_blacklists_token (hash : String → String) (secret : String)
    (tok : Token) (now : Nat) (db : DB)
    (hlive : ∀ e ∈ db.tokenBlacklist, e.tokenHash = hash tok.enc →
      now < e.expiresAt)
    (hexp : ∀ p s, tok = .signed p s → p.exp ≠ 0 → now < p.exp) :
    JWTUtils.isTokenBlacklisted hash true tok now
      (LocalAuthService.logout hash true tok now db).2.tokenBlacklist
      = true ∧
    authenticate hash true secret now tok
      (LocalAuthService.logout hash true tok now db).2
      = .error tokenBlacklistedError ∧
    (∀ now2, LocalAuthService.getUserFromToken secret now2 tok
        (LocalAuthService.logout hash true tok now db).2
      = LocalAuthService.getUserFromToken secret now2 tok db) := by
  have hne : ¬ (tok.enc = "") := Token.enc_ne_empty tok
  have hchar : ∀ e, JWTUtils.decodeExp tok = some e → ¬ e = 0 ∧ now < e := by
    intro e he
    cases tok with
    | malformed r => exact absurd he (by simp [JWTUtils.decodeExp])
    | signed p s =>
      have he2 : (if p.exp = 0 then none else some p.exp) = some e := he
      by_cases hp : p.exp = 0
      · rw [if_pos hp] at he2; exact absurd he2 (by simp)
      · rw [if_neg hp] at he2
        rw [Option.some.injEq] at he2
        subst he2
        exact ⟨hp, hexp p s rfl hp⟩
  obtain ⟨r, bl2, hadd, hrmem, hrhash, hrexp⟩ :=
    addToBlacklist_ok_cases hash tok.enc "logout" (JWTUtils.decodeExp tok)
      now db.tokenBlacklist hne
  have hblt : JWTUtils.blacklistToken hash true tok "logout" now
      db.tokenBlacklist = .ok bl2 := by
    unfold JWTUtils.blacklistToken
    rw [hadd]
  have hlogout : LocalAuthService.logout hash true tok now db
      = (⟨true, "ログアウトしました"⟩, { db with tokenBlacklist := bl2 }) := by
    unfold LocalAuthService.logout
    rw [hblt]
  have hrlt : now < r.expiresAt := by
    rcases hrexp with hin | hdef
    · exact hlive r hin hrhash
    · cases htok : JWTUtils.decodeExp tok with
      | none =>
        rw [htok] at hdef
        simp [TokenBlacklistRepository.defaultExpiry] at hdef
        omega
      | some e =>
        obtain ⟨he0, helt⟩ := hchar e htok
        rw [htok] at hdef
        simp [TokenBlacklistRepository.defaultExpiry, he0] at hdef
        omega
  have hisb : JWTUtils.isTokenBlacklisted hash true tok now bl2 = true := by
    have hfind : (bl2.find? (fun e => e.tokenHash == hash tok.enc
        && decide (now < e.expiresAt))).isSome = true :=
      List.find?_isSome.mpr ⟨r, hrmem, by simp [hrhash, hrlt]⟩
    unfold JWTUtils.isTokenBlacklisted TokenBlacklistRepository.isBlacklisted
    rw [if_neg hne]
    simp [hfind]
  refine ⟨?_, ?_, ?_⟩
  · rw [hlogout]
    exact hisb
  · unfold authenticate
    rw [hlogout]
    simp [hisb]
  · intro now2
    rw [hlogout]
    rfl

theorem logout_blacklists_token_witness :
    JWTUtils.isTokenBlacklisted (fun s => s) true sampleToken 0
      (LocalAuthService.logout (fun s => s) true sampleToken 0
        sampleDB).2.tokenBlacklist = true ∧
    authenticate (fun s => s) true "secret" 0 sampleToken
      (LocalAuthService.logout (fun s => s) true sampleToken 0 sampleDB).2
      = .error tokenBlacklistedError ∧
    (∀ now2, LocalAuthService.getUserFromToken "secret" now2 sampleToken
        (LocalAuthService.logout (fun s => s) true sampleToken 0 sampleDB).2
      = LocalAuthService.getUserFromToken "secret" now2 sampleToken
        sampleDB) :=
  logout_blacklists_token (fun s => s) "secret" sampleToken 0 sampleDB
    (by intro e he; simp [sampleDB] at he)
    (by
      intro p s hp hne2
      have hp2 : Token.signed samplePayload "secret" = Token.signed p s := hp
      injection hp2 with h1 h2
      rw [← h1]
      decide)

/-- Fixture for the C5 counterexample: two already-expired entries stored
under the same hash key (reachable one entry at a time: an entry added at
time 0 with default expiry is expired by time 100000; duplicates can enter
through racing writers, which the design accepts). -/
def expiredEntry1 : BlacklistEntry := ⟨1, "tok", "logout", 0, 90⟩

def expiredEntry2 : BlacklistEntry := ⟨2, "tok", "logout", 0, 90⟩

/-- C5 counterexample: starting from a store holding two expired entries
for sha256(t), `add(t, reason)` returns the first existing entry and
leaves the store unchanged — so calling it twice still leaves two entries
under that hash, not one, and `isBlacklisted(t)` is false after the calls
because the surviving entry is expired and `add` did not refresh it. -/
theorem blacklist_add_twice_counterexample :
    TokenBlacklistRepository.addToBlacklist (fun s => s) true "tok" "logout"
        none 100 [expiredEntry1, expiredEntry2]
      = .ok (expiredEntry1, [expiredEntry1, expiredEntry2]) ∧
    countHash "tok" [expiredEntry1, expiredEntry2] = 2 ∧
    TokenBlacklistRepository.isBlacklisted (fun s => s) true "tok" 100
        [expiredEntry1, expiredEntry2] = .ok false := by
  decide

/-- C5 amended: for every nonempty token string t and every blacklist
state holding at most one entry for sha256(t), that entry (if any)
unexpired, calling add(t, reason) twice in succession leaves exactly one
entry whose key is sha256(t) — the second call returning the existing
entry instead of appending a duplicate — and isBlacklisted(t) is true
after either one or two calls. -/
theorem blacklist_add_idempotent (hash : String → String)
    (t reason : String) (now : Nat) (bl : List BlacklistEntry)
    (hne : ¬ t = "")
    (hcount : countHash (hash t) bl ≤ 1)
    (hlive : ∀ e ∈ bl, e.tokenHash = hash t → now < e.expiresAt) :
    ∃ r1 bl1 r2,
      TokenBlacklistRepository.addToBlacklist hash true t reason none now bl
        = .ok (r1, bl1) ∧
      TokenBlacklistRepository.addToBlacklist hash true t reason none now bl1
        = .ok (r2, bl1) ∧
      r2 ∈ bl1 ∧ r2.tokenHash = hash t ∧
      countHash (hash t) bl1 = 1 ∧
      TokenBlacklistRepository.isBlacklisted hash true t now bl1
        = .ok true := by
  unfold TokenBlacklistRepository.addToBlacklist
  rw [if_neg hne]
  cases hfind : bl.find? (fun e => e.tokenHash == hash t) with
  | some ex =>
    have hb := List.find?_some hfind
    simp only [] at hb
    have hmem := List.mem_of_find?_eq_some hfind
    have hhash : ex.tokenHash = hash t := eq_of_beq hb
    have hlt : now < ex.expiresAt := hlive ex hmem hhash
    refine ⟨ex, bl, ex, rfl, ?_, hmem, hhash, ?_, ?_⟩
    · rw [if_neg hne, hfind]
    · have h1 : 0 < countHash (hash t) bl := by
        unfold countHash
        exact List.length_pos.mpr
          (List.ne_nil_of_mem (List.mem_filter.mpr ⟨hmem, hb⟩))
      omega
    · have hfs : (bl.find? (fun e => e.tokenHash == hash t
          && decide (now < e.expiresAt))).isSome = true :=
        List.find?_isSome.mpr ⟨ex, hmem, by simp [hhash, hlt]⟩
      unfold TokenBlacklistRepository.isBlacklisted
      rw [if_neg hne]
      exact congrArg Except.ok hfs
  | none =>
    have hnone : ∀ e ∈ bl, ¬ (e.tokenHash == hash t) = true :=
      List.find?_eq_none.mp hfind
    have hfilter : bl.filter (fun e => e.tokenHash == hash t) = [] :=
      List.filter_eq_nil_iff.mpr hnone
    refine ⟨TokenBlacklistRepository.newEntry hash t reason none now, _,
      TokenBlacklistRepository.newEntry hash t reason none now, rfl, ?_,
      List.mem_append_right _ (List.mem_singleton.mpr rfl), rfl, ?_, ?_⟩
    · rw [if_neg hne, List.find?_append, hfind]
      simp [TokenBlacklistRepository.newEntry]
    · unfold countHash
      rw [List.filter_append, hfilter]
      simp [TokenBlacklistRepository.newEntry]
    · have hlt : now < TokenBlacklistRepository.defaultExpiry none now := by
        simp only [TokenBlacklistRepository.defaultExpiry]
        omega
      have hfs : ((bl ++ [TokenBlacklistRepository.newEntry hash t reason
          none now]).find? (fun e => e.tokenHash == hash t
          && decide (now < e.expiresAt))).isSome = true :=
        List.find?_isSome.mpr
          ⟨TokenBlacklistRepository.newEntry hash t reason none now,
            List.mem_append_right _ (List.mem_singleton.mpr rfl),
            by simp [TokenBlacklistRepository.newEntry, hlt]⟩
      unfold TokenBlacklistRepository.isBlacklisted
      rw [if_neg hne]
      exact congrArg Except.ok hfs

theorem blacklist_add_idempotent_witness :
    ∃ r1 bl1 r2,
      TokenBlacklistRepository.addToBlacklist (fun s => s) true "tok"
          "logout" none 0 [] = .ok (r1, bl1) ∧
      TokenBlacklistRepository.addToBlacklist (fun s => s) true "tok"
          "logout" none 0 bl1 = .ok (r2, bl1) ∧
      r2 ∈ bl1 ∧ r2.tokenHash = (fun s : String => s) "tok" ∧
      countHash ((fun s : String => s) "tok") bl1 = 1 ∧
      TokenBlacklistRepository.isBlacklisted (fun s => s) true "tok" 0 bl1
        = .ok true :=
  blacklist_add_idempotent (fun s => s) "tok" "logout" 0 []
    (by decide) (by decide) (by intro e he; simp at he)

/-- Models `invalidateMark` never changes the token string. -/
theorem invalidateMark_token (userId : Nat) (rt : ResetTokenRec) :
    (PasswordResetRepository.invalidateMark userId rt).token = rt.token := by
  unfold PasswordResetRepository.invalidateMark
  split <;> rfl

/-- Models `invalidateMark` never changes the owner. -/
theorem invalidateMark_userId (userId : Nat) (rt : ResetTokenRec) :
    (PasswordResetRepository.invalidateMark userId rt).userId = rt.userId := by
  unfold PasswordResetRepository.invalidateMark
  split <;> rfl

/-- After `invalidateMark`, every record of the targeted user is used. -/
theorem invalidateMark_used (userId : Nat) (rt : ResetTokenRec)
    (hu : rt.userId = userId) :
    (PasswordResetRepository.invalidateMark userId rt).used = true := by
  unfold PasswordResetRepository.invalidateMark
  by_cases h : (rt.userId == userId && !rt.used) = true
  · rw [if_pos h]
  · rw [if_neg h]
    simp [hu] at h
    exact h

/-- Models `invalidateMark` leaves other users' records untouched. -/
theorem invalidateMark_other (userId : Nat) (rt : ResetTokenRec)
    (hu : ¬ rt.userId = userId) :
    PasswordResetRepository.invalidateMark userId rt = rt := by
  unfold PasswordResetRepository.invalidateMark
  rw [if_neg]
  simp [hu]

/-- C1: the code diverges from this claim.  createResetToken does mark
every unused token of the user as used, and that invalidation reaches the
file; but the newly generated token is pushed into the stale object of the
first read while the write persists the store re-read inside
invalidateUserTokens (lowdb read() replaces db.data), so the new token is
never persisted: findByToken on the token string returned to the caller
yields none afterwards, the per-user valid-token count drops to zero, and
the claim's "the new token is found by findByToken" is false on every
store state.  The spec's "generates a new high-entropy token and persists
it" is clearly the intent, so this is a bug in the code, not in the
claim. -/
theorem createResetToken_new_token_not_persisted (userId expiresIn : Nat)
    (newTok : String) (now : Nat) (toks : List ResetTokenRec)
    (hfresh : ∀ rt ∈ toks, ¬ rt.token = newTok)
    (hdist : ∀ a ∈ toks, ∀ b ∈ toks, a.token = b.token → a = b) :
    (PasswordResetRepository.createResetToken userId expiresIn newTok now
      toks).1.token = newTok ∧
    PasswordResetRepository.findByToken newTok now
      (PasswordResetRepository.createResetToken userId expiresIn newTok now
        toks).2 = none ∧
    (∀ rt ∈ toks, rt.userId = userId →
      PasswordResetRepository.findByToken rt.token now
        (PasswordResetRepository.createResetToken userId expiresIn newTok
          now toks).2 = none) := by
  have h2 : (PasswordResetRepository.createResetToken userId expiresIn
      newTok now toks).2
      = toks.map (PasswordResetRepository.invalidateMark userId) := rfl
  refine ⟨rfl, ?_, ?_⟩
  · rw [h2]
    unfold PasswordResetRepository.findByToken
    apply List.find?_eq_none.mpr
    intro x hx
    obtain ⟨rt, hrt, rfl⟩ := List.mem_map.mp hx
    simp [invalidateMark_token, hfresh rt hrt]
  · rw [h2]
    intro rt hrt hu
    unfold PasswordResetRepository.findByToken
    apply List.find?_eq_none.mpr
    intro x hx
    obtain ⟨rt2, hrt2, rfl⟩ := List.mem_map.mp hx
    by_cases he : rt2.token = rt.token
    · obtain rfl := hdist rt2 hrt2 rt hrt he
      simp [invalidateMark_used userId rt2 hu]
    · simp [invalidateMark_token, he]

theorem createResetToken_new_token_not_persisted_witness :
    (PasswordResetRepository.createResetToken 1 3600 "new" 10
      [⟨1, 1, "old", 4000, 0, false⟩]).1.token = "new" ∧
    PasswordResetRepository.findByToken "new" 10
      (PasswordResetRepository.createResetToken 1 3600 "new" 10
        [⟨1, 1, "old", 4000, 0, false⟩]).2 = none ∧
    (∀ rt ∈ [(⟨1, 1, "old", 4000, 0, false⟩ : ResetTokenRec)],
      rt.userId = 1 →
      PasswordResetRepository.findByToken rt.token 10
        (PasswordResetRepository.createResetToken 1 3600 "new" 10
          [⟨1, 1, "old", 4000, 0, false⟩]).2 = none) :=
  createResetToken_new_token_not_persisted 1 3600 "new" 10
    [⟨1, 1, "old", 4000, 0, false⟩]
    (by intro rt hrt; simp at hrt; rw [hrt]; decide)
    (by
      intro a ha b hb hab
      simp at ha hb
      rw [ha, hb])

/-- Models `updatePasswordAux` returns `none` exactly when no record carries the
id. -/
theorem updatePasswordAux_none (id : Nat) (newHash : String) :
    ∀ users : List User,
      UserRepository.updatePasswordAux id newHash users = none →
      ∀ x ∈ users, ¬ x.id = id := by
  intro users
  induction users with
  | nil => intro _ x hx; simp at hx
  | cons u rest ih =>
    intro haux x hx
    unfold UserRepository.updatePasswordAux at haux
    by_cases hc : (u.id == id) = true
    · rw [if_pos hc] at haux
      exact absurd haux (by simp)
    · rw [if_neg hc] at haux
      rw [Option.map_eq_none'] at haux
      rcases List.mem_cons.mp hx with rfl | hx2
      · intro h; exact hc (beq_iff_eq.mpr h)
      · exact ih haux x hx2

/-- When `updatePasswordAux` succeeds on a list of pairwise-distinct ids,
every record of that id in the result carries the new hash. -/
theorem updatePasswordAux_some (id : Nat) (newHash : String) :
    ∀ (users l : List User),
      UserRepository.updatePasswordAux id newHash users = some l →
      users.Pairwise (fun a b => a.id ≠ b.id) →
      ∀ x ∈ l, x.id = id → x.passwordHash = newHash := by
  intro users
  induction users with
  | nil => intro l haux; simp [UserRepository.updatePasswordAux] at haux
  | cons u rest ih =>
    intro l haux hp x hx hxid
    rw [List.pairwise_cons] at hp
    unfold UserRepository.updatePasswordAux at haux
    by_cases hc : (u.id == id) = true
    · rw [if_pos hc] at haux
      rw [Option.some.injEq] at haux
      subst haux
      rcases List.mem_cons.mp hx with rfl | hx2
      · rfl
      · have huid : u.id = id := beq_iff_eq.mp hc
        exact absurd (huid.trans hxid.symm) (hp.1 x hx2)
    · rw [if_neg hc] at haux
      rw [Option.map_eq_some'] at haux
      obtain ⟨l2, haux2, rfl⟩ := haux
      rcases List.mem_cons.mp hx with rfl | hx2
      · exact absurd (beq_iff_eq.mpr hxid) hc
      · exact ih l2 haux2 hp.2 x hx2 hxid

/-- After `updatePassword`, every record of the targeted id (on a store
with pairwise-distinct ids) carries the new hash, whether or not a record
was found. -/
theorem updatePassword_hash_all (id : Nat) (newHash : String)
    (users : List User) (hp : users.Pairwise (fun a b => a.id ≠ b.id)) :
    ∀ x ∈ (UserRepository.updatePassword id newHash users).1, x.id = id →
      x.passwordHash = newHash := by
  unfold UserRepository.updatePassword
  cases haux : UserRepository.updatePasswordAux id newHash users with
  | none =>
    intro x hx hxid
    exact absurd hxid (updatePasswordAux_none id newHash users haux x hx)
  | some l =>
    intro x hx hxid
    exact updatePasswordAux_some id newHash users l haux hp x hx hxid

/-- Models `markTokenAsUsedAux` returns `none` exactly when no record carries the
token string. -/
theorem markTokenAsUsedAux_none (token : String) :
    ∀ toks : List ResetTokenRec,
      PasswordResetRepository.markTokenAsUsedAux token toks = none →
      ∀ x ∈ toks, ¬ x.token = token := by
  intro toks
  induction toks with
  | nil => intro _ x hx; simp at hx
  | cons rt rest ih =>
    intro haux x hx
    unfold PasswordResetRepository.markTokenAsUsedAux at haux
    by_cases hc : (rt.token == token) = true
    · rw [if_pos hc] at haux
      exact absurd haux (by simp)
    · rw [if_neg hc] at haux
      rw [Option.map_eq_none'] at haux
      rcases List.mem_cons.mp hx with rfl | hx2
      · intro h; exact hc (beq_iff_eq.mpr h)
      · exact ih haux x hx2

/-- When `markTokenAsUsedAux` succeeds on a store with pairwise-distinct
token strings, every record with the token string is used afterwards. -/
theorem markTokenAsUsedAux_some (token : String) :
    ∀ (toks l : List ResetTokenRec),
      PasswordResetRepository.markTokenAsUsedAux token toks = some l →
      toks.Pairwise (fun a b => a.token ≠ b.token) →
      ∀ x ∈ l, x.token = token → x.used = true := by
  intro toks
  induction toks with
  | nil => intro l haux; simp [PasswordResetRepository.markTokenAsUsedAux] at haux
  | cons rt rest ih =>
    intro l haux hp x hx hxtok
    rw [List.pairwise_cons] at hp
    unfold PasswordResetRepository.markTokenAsUsedAux at haux
    by_cases hc : (rt.token == token) = true
    · rw [if_pos hc] at haux
      rw [Option.some.injEq] at haux
      subst haux
      rcases List.mem_cons.mp hx with rfl | hx2
      · rfl
      · have hrtt : rt.token = token := beq_iff_eq.mp hc
        exact absurd (hrtt.trans hxtok.symm) (hp.1 x hx2)
    · rw [if_neg hc] at haux
      rw [Option.map_eq_some'] at haux
      obtain ⟨l2, haux2, rfl⟩ := haux
      rcases List.mem_cons.mp hx with rfl | hx2
      · exact absurd (beq_iff_eq.mpr hxtok) hc
      · exact ih l2 haux2 hp.2 x hx2 hxtok

/-- After `markTokenAsUsed`, every record with the token string (on a
store with pairwise-distinct token strings) is used. -/
theorem markTokenAsUsed_all (token : String) (toks : List ResetTokenRec)
    (hp : toks.Pairwise (fun a b => a.token ≠ b.token)) :
    ∀ x ∈ (PasswordResetRepository.markTokenAsUsed token toks).1,
      x.token = token → x.used = true := by
  unfold PasswordResetRepository.markTokenAsUsed
  cases haux : PasswordResetRepository.markTokenAsUsedAux token toks with
  | none =>
    intro x hx hxtok
    exact absurd hxtok (markTokenAsUsedAux_none token toks haux x hx)
  | some l =>
    intro x hx hxtok
    exact markTokenAsUsedAux_some token toks l haux hp x hx hxtok

/-- C3: a successful resetPassword rehashes and stores the new password,
marks the reset token used, and deletes every refresh-token record of the
user, so that refreshAccessToken with any refresh token previously issued
to that user subsequently fails. -/
theorem resetPassword_revokes_all (bhash : String → String)
    (token newPassword : String) (now : Nat) (db : DB)
    (rt : ResetTokenRec) (u : User)
    (hfind : PasswordResetRepository.findByToken token now
      db.passwordResetTokens = some rt)
    (huser : UserRepository.findById rt.userId db.users = some u)
    (hpid : db.users.Pairwise (fun a b => a.id ≠ b.id))
    (hptok : db.passwordResetTokens.Pairwise (fun a b => a.token ≠ b.token))
    (hprt : db.refreshTokens.Pairwise (fun a b => a.token ≠ b.token)) :
    ∃ db2, LocalAuthService.resetPassword bhash token newPassword now db
        = .ok (⟨true, "パスワードが正常にリセットされました"⟩, db2) ∧
      (∀ x ∈ db2.users, x.id = u.id → x.passwordHash = bhash newPassword) ∧
      (∀ x ∈ db2.passwordResetTokens, x.token = token → x.used = true) ∧
      db2.refreshTokens
        = db.refreshTokens.filter (fun r => r.userId != u.id) ∧
      (∀ r ∈ db.refreshTokens, r.userId = u.id →
        ∀ secret now2 expiresIn,
          LocalAuthService.refreshAccessToken secret now2 expiresIn r.token
            db2 = .error invalidRefreshTokenError) := by
  refine ⟨{ db with
      users := (UserRepository.updatePassword u.id (bhash newPassword)
        db.users).1
      passwordResetTokens := (PasswordResetRepository.markTokenAsUsed token
        db.passwordResetTokens).1
      refreshTokens := (RefreshTokenRepository.deleteByUserId u.id
        db.refreshTokens).2 },
    ?_, ?_, ?_, ?_, ?_⟩
  · unfold LocalAuthService.resetPassword
    simp only [hfind, huser]
  · exact updatePassword_hash_all u.id (bhash newPassword) db.users hpid
  · exact markTokenAsUsed_all token db.passwordResetTokens hptok
  · rfl
  · intro r hr hru secret now2 expiresIn
    have hnone : ((RefreshTokenRepository.deleteByUserId u.id
        db.refreshTokens).2).find? (fun r2 => r2.token == r.token)
        = none := by
      unfold RefreshTokenRepository.deleteByUserId
      apply List.find?_eq_none.mpr
      intro x hx
      obtain ⟨hxmem, hxne⟩ := List.mem_filter.mp hx
      intro hbeq
      have hxr : x = r :=
        pairwise_key_inj (fun t => t.token) db.refreshTokens hprt x hxmem
          r hr (eq_of_beq hbeq)
      rw [hxr, hru] at hxne
      simp at hxne
    unfold LocalAuthService.refreshAccessToken
      RefreshTokenRepository.findByToken
    simp only [hnone]

theorem resetPassword_revokes_all_witness :
    ∃ db2, LocalAuthService.resetPassword (fun _ => "NH") "reset1" "newpw" 10
        ⟨[sampleUser], [⟨1, "rt1", 1, none, 0, 500, 0⟩], [],
          [⟨1, 1, "reset1", 4000, 0, false⟩]⟩
        = .ok (⟨true, "パスワードが正常にリセットされました"⟩, db2) ∧
      (∀ x ∈ db2.users, x.id = sampleUser.id →
        x.passwordHash = (fun _ : String => "NH") "newpw") ∧
      (∀ x ∈ db2.passwordResetTokens, x.token = "reset1" → x.used = true) ∧
      db2.refreshTokens
        = [(⟨1, "rt1", 1, none, 0, 500, 0⟩ : RefreshTokenRec)].filter
            (fun r => r.userId != sampleUser.id) ∧
      (∀ r ∈ [(⟨1, "rt1", 1, none, 0, 500, 0⟩ : RefreshTokenRec)],
        r.userId = sampleUser.id →
        ∀ secret now2 expiresIn,
          LocalAuthService.refreshAccessToken secret now2 expiresIn r.token
            db2 = .error invalidRefreshTokenError) :=
  resetPassword_revokes_all (fun _ => "NH") "reset1" "newpw" 10
    ⟨[sampleUser], [⟨1, "rt1", 1, none, 0, 500, 0⟩], [],
      [⟨1, 1, "reset1", 4000, 0, false⟩]⟩
    ⟨1, 1, "reset1", 4000, 0, false⟩ sampleUser
    (by decide) (by decide) (by simp) (by simp) (by simp)

end PocAuth
